import Mathlib

/-!
Verification development for the GDC-Parameters repository
(src/air/EN_ATM_GHGT_AIP.py).

The script fetches greenhouse-gas emission time series per country from a
statistics API, merges them with an EU aggregate, persists the merged
dataset to JSON, and renders charts (line / bar / pie / stacked) behind a
dashboard callback.  We embed the data model and the pure content of each
operation below and prove the specified properties.

Conventions of the embedding:
* A JSON `series` mapping (year string -> numeric value) is an association
  list `List (String × Int)`; being a mapping, its keys are assumed nodup
  where a claim needs it.
* Python's `sorted` on pairs is modelled by `List.insertionSort` with the
  lexicographic order on (key, value); both are stable, and on lists with
  distinct keys any two sorted permutations coincide.
* Network and file I/O outcomes are passed in explicitly; a caught
  exception is a normal return (`Except.ok`), an uncaught one would be
  `Except.error`.
-/

/-- One point of a country's series: `{"year": ..., "emission": ...}`. -/
structure DataPoint where
  year : String
  emission : Int
deriving DecidableEq, Repr

/-- One element of the combined dataset:
`{"country_code": ..., "data": [...]}`. -/
structure CountrySeries where
  country_code : String
  data : List DataPoint
deriving DecidableEq, Repr

/-- Python's string comparison: lexicographic on the code-point sequence. -/
def strLt (a b : String) : Prop :=
  List.Lex (· < ·) a.data b.data

/-- Reflexive closure of `strLt`. -/
def strLe (a b : String) : Prop :=
  strLt a b ∨ a = b

instance : DecidableRel strLt := fun a b => by
  unfold strLt
  exact inferInstance

instance : DecidableRel strLe := fun a b => by
  unfold strLe
  exact inferInstance

theorem strEq_of_data_eq {a b : String} (h : a.data = b.data) : a = b :=
  congrArg String.mk h

theorem strLt_trichotomy (a b : String) : strLt a b ∨ a = b ∨ strLt b a := by
  haveI := List.Lex.isTrichotomous (fun c1 c2 : Char => c1 < c2)
  rcases @IsTrichotomous.trichotomous _ _ this a.data b.data with h | h | h
  · exact Or.inl h
  · exact Or.inr (Or.inl (strEq_of_data_eq h))
  · exact Or.inr (Or.inr h)

theorem strLt_trans {a b c : String} (h1 : strLt a b) (h2 : strLt b c) :
    strLt a c := by
  haveI := List.Lex.isStrictTotalOrder (fun c1 c2 : Char => c1 < c2)
  unfold strLt at h1 h2 ⊢
  exact Trans.trans h1 h2

theorem strLt_asymm {a b : String} (h1 : strLt a b) (h2 : strLt b a) : False := by
  haveI := List.Lex.isAsymm (fun c1 c2 : Char => c1 < c2)
  exact IsAsymm.asymm a.data b.data h1 h2

instance : IsTotal String strLe := by
  constructor
  intro a b
  rcases strLt_trichotomy a b with h | h | h
  · exact Or.inl (Or.inl h)
  · exact Or.inl (Or.inr h)
  · exact Or.inr (Or.inl h)

instance : IsTrans String strLe := by
  constructor
  intro a b c hab hbc
  rcases hab with h1 | rfl
  · rcases hbc with h2 | rfl
    · exact Or.inl (strLt_trans h1 h2)
    · exact Or.inl h1
  · exact hbc

/-- The order Python's `sorted` uses on `dict.items()` pairs:
lexicographic on (key, value). -/
def pairLe (a b : String × Int) : Prop :=
  strLt a.1 b.1 ∨ (a.1 = b.1 ∧ a.2 ≤ b.2)

instance : DecidableRel pairLe := fun a b => by
  unfold pairLe
  exact inferInstance

instance : IsTotal (String × Int) pairLe := by
  constructor
  intro a b
  rcases strLt_trichotomy a.1 b.1 with h | h | h
  · exact Or.inl (Or.inl h)
  · rcases le_total a.2 b.2 with h2 | h2
    · exact Or.inl (Or.inr ⟨h, h2⟩)
    · exact Or.inr (Or.inr ⟨h.symm, h2⟩)
  · exact Or.inr (Or.inl h)

instance : IsTrans (String × Int) pairLe := by
  constructor
  intro a b c hab hbc
  rcases hab with h1 | ⟨e1, v1⟩
  · rcases hbc with h2 | ⟨e2, _⟩
    · exact Or.inl (strLt_trans h1 h2)
    · exact Or.inl (e2 ▸ h1)
  · rcases hbc with h2 | ⟨e2, v2⟩
    · exact Or.inl (e1 ▸ h2)
    · exact Or.inr ⟨e1.trans e2, v1.trans v2⟩

/-- `[{"year": year, "emission": value} for year, value in sorted(series.items())]`
(line 34 / line 49 of the source). -/
def seriesToData (series : List (String × Int)) : List DataPoint :=
  (List.insertionSort pairLe series).map (fun p => ⟨p.1, p.2⟩)

/-- The shape of a decoded API response body, as the script consumes it:
only the presence and content of the `series` field matter
(`if response and 'series' in response`). -/
structure ApiResponse where
  series : Option (List (String × Int))

/-- Outcome of an I/O action: normal completion or a raised exception. -/
inductive IOResult (α : Type) where
  | ok (a : α) : IOResult α
  | err (msg : String) : IOResult α

/-- `fetch_data` (lines 15-21): returns the decoded JSON body, or `None`
when the request or the decode raised (the exception is caught). -/
def fetch_data (outcome : IOResult ApiResponse) : Option ApiResponse :=
  match outcome with
  | .ok r => some r
  | .err _ => none

/-- `parse_country_data` (lines 23-39), after the gather: walk the
(code, response) pairs in request order; a response that is present and
has a `series` field contributes one CountrySeries with the sorted data
list, anything else contributes nothing. -/
def parse_country_data (pairs : List (String × Option ApiResponse)) :
    List CountrySeries :=
  pairs.filterMap (fun p =>
    match p.2 with
    | some r =>
      match r.series with
      | some s => some ⟨p.1, seriesToData s⟩
      | none => none
    | none => none)

/-- `fetch_eu_data` (lines 41-57): one fetch for the fixed EU place; a
`series` field yields a singleton list tagged "EU", a missing field or a
raised exception yields `[]`. -/
def fetch_eu_data (outcome : IOResult ApiResponse) : List CountrySeries :=
  match outcome with
  | .ok r =>
    match r.series with
    | some s => [⟨"EU", seriesToData s⟩]
    | none => []
  | .err _ => []

/-- `combined_data = country_data + EU_data if EU_data else country_data`
(line 127); Python truthiness of a list is non-emptiness. -/
def combineData (country_data EU_data : List CountrySeries) :
    List CountrySeries :=
  if EU_data = [] then country_data else country_data ++ EU_data

/-! ### Persistence (save_data_to_json / load_data_from_json) -/

/-- JSON values, as far as this program produces and consumes them.
Numbers are the integral emission values the dataset carries. -/
inductive Json where
  | null : Json
  | num (n : Int) : Json
  | str (s : String) : Json
  | arr (xs : List Json) : Json
  | obj (fields : List (String × Json)) : Json

/-- What a path can hold: no file, a file `json.load` cannot parse, or a
file holding (the text of) a JSON value. -/
inductive FileContent where
  | absent : FileContent
  | malformed : FileContent
  | json (j : Json) : FileContent

/-- The file-system state the two persistence functions act on.
`writeFails p` models an I/O error (e.g. permission denied) raised when
opening `p` for writing. -/
structure FileSys where
  contents : String → FileContent
  writeFails : String → Bool

/-- `json.dump` of one data point (a dict with insertion order
year-then-emission). -/
def encodePoint (p : DataPoint) : Json :=
  .obj [("year", .str p.year), ("emission", .num p.emission)]

/-- `json.dump` of one CountrySeries dict. -/
def encodeCountry (c : CountrySeries) : Json :=
  .obj [("country_code", .str c.country_code), ("data", .arr (c.data.map encodePoint))]

/-- `json.dump` of the combined dataset (a JSON array). -/
def encodeDataset (ds : List CountrySeries) : Json :=
  .arr (ds.map encodeCountry)

/-- All-or-nothing elementwise decoding of a JSON array's elements. -/
def decodeList {α : Type} (f : Json → Option α) : List Json → Option (List α)
  | [] => some []
  | x :: xs =>
    match f x, decodeList f xs with
    | some a, some l => some (a :: l)
    | _, _ => none

/-- Read one data point back from its JSON shape. -/
def decodePoint : Json → Option DataPoint
  | .obj [("year", .str y), ("emission", .num e)] => some ⟨y, e⟩
  | _ => none

/-- Read one CountrySeries back from its JSON shape. -/
def decodeCountry : Json → Option CountrySeries
  | .obj [("country_code", .str c), ("data", .arr xs)] =>
    (decodeList decodePoint xs).map (fun d => ⟨c, d⟩)
  | _ => none

/-- Read a combined dataset back from its JSON shape. -/
def decodeDataset : Json → Option (List CountrySeries)
  | .arr xs => decodeList decodeCountry xs
  | _ => none

/-- `save_data_to_json` (lines 59-65): write the serialized dataset to
`file_path`; an I/O error is caught and logged, the function returns
normally either way.  The result is the new file-system state plus the
log line; `Except.error` would be an uncaught exception and is never
produced. -/
def save_data_to_json (fs : FileSys) (data : List CountrySeries)
    (file_path : String) : Except String (FileSys × String) :=
  if fs.writeFails file_path then
    Except.ok (fs, "Error saving data to JSON")
  else
    Except.ok
      ({ fs with
          contents := fun p =>
            if p = file_path then .json (encodeDataset data) else fs.contents p },
        "Data saved to " ++ file_path)

/-- `load_data_from_json` (lines 67-74): parse the JSON at `file_path`
and return it; a missing or unparsable file is caught and logged and the
function returns the empty list (`Json.arr []`).  `Except.error` would be
an uncaught exception and is never produced. -/
def load_data_from_json (fs : FileSys) (file_path : String) :
    Except String Json :=
  match fs.contents file_path with
  | .json j => Except.ok j
  | .absent => Except.ok (Json.arr [])
  | .malformed => Except.ok (Json.arr [])

theorem decodePoint_encodePoint (p : DataPoint) :
    decodePoint (encodePoint p) = some p := rfl

theorem decodeList_encode {α : Type} (f : α → Json) (g : Json → Option α)
    (hfg : ∀ a, g (f a) = some a) :
    ∀ l : List α, decodeList g (l.map f) = some l := by
  intro l
  induction l with
  | nil => rfl
  | cons a l ih =>
    simp only [List.map_cons, decodeList, hfg a, ih]

theorem decodeCountry_encodeCountry (c : CountrySeries) :
    decodeCountry (encodeCountry c) = some c := by
  cases c with
  | mk code data =>
    simp only [encodeCountry, decodeCountry,
      decodeList_encode encodePoint decodePoint decodePoint_encodePoint data,
      Option.map_some']

theorem decodeDataset_encodeDataset (ds : List CountrySeries) :
    decodeDataset (encodeDataset ds) = some ds := by
  simp only [encodeDataset, decodeDataset]
  exact decodeList_encode encodeCountry decodeCountry decodeCountry_encodeCountry ds

/-! ### Chart renderer (plot_data) and dashboard callback (update_graph) -/

/-- One plotly trace, restricted to the constructors and attributes the
script sets. -/
inductive Trace where
  | scatter (x : List String) (y : List Int) (label : String) : Trace
  | bar (x : List String) (y : List Int) (label : String) : Trace
  | pie (labels : List String) (values : List Int) : Trace
deriving DecidableEq, Repr

/-- The layout attributes `fig.update_layout` sets (lines 105-108). -/
structure Layout where
  title : String
  xaxis_title : String
  yaxis_title : String
  template : String
deriving DecidableEq, Repr

/-- A figure: its traces plus the layout. -/
structure Figure where
  traces : List Trace
  layout : Layout
deriving DecidableEq, Repr

/-- Python's `list.index`: position of the first occurrence (the source
only calls it on members, so the out-of-range value is never reached). -/
def listIdx (l : List String) (y : String) : Nat :=
  match l with
  | [] => 0
  | a :: rest => if a = y then 0 else listIdx rest y + 1

/-- `v[i] += x` on a Python list (the source only uses in-range indices). -/
def addAt (v : List Int) (i : Nat) (x : Int) : List Int :=
  match v, i with
  | [], _ => []
  | a :: rest, 0 => (a + x) :: rest
  | a :: rest, n + 1 => a :: addAt rest n x

/-- `[item['year'] for country in combined_data for item in country['data']]`
(line 94). -/
def allYears (ds : List CountrySeries) : List String :=
  ds.flatMap (fun country => country.data.map (fun item => item.year))

/-- `sorted(list(set(...)))` (line 94): distinct years, ascending. -/
def sortedYears (ds : List CountrySeries) : List String :=
  List.insertionSort strLe (allYears ds).dedup

/-- Key insertion into a Python dict built by comprehension: a repeated
key keeps its first position. -/
def insertCode (acc : List String) (c : String) : List String :=
  if c ∈ acc then acc else acc ++ [c]

/-- The key sequence of `{country['country_code']: ... for country in
combined_data}` (line 95): first-occurrence order. -/
def firstOccCodes (ds : List CountrySeries) : List String :=
  ds.foldl (fun acc country => insertCode acc country.country_code) []

/-- Dict update at one key, on an association-list representation. -/
def updateAssoc (m : List (String × List Int)) (k : String)
    (f : List Int → List Int) : List (String × List Int) :=
  m.map (fun p => if p.1 = k then (p.1, f p.2) else p)

/-- The inner loop of the stacked branch (lines 97-98): add each item's
emission at its year's index. -/
def applyData (years : List String) (d : List DataPoint) (v : List Int) :
    List Int :=
  d.foldl (fun v item => addAt v (listIdx years item.year) item.emission) v

/-- The `stacked` branch (lines 93-101): year axis, zero-initialised dict,
accumulation, one bar trace per dict key. -/
def stackedTraces (ds : List CountrySeries) : List Trace :=
  (ds.foldl
    (fun m country =>
      updateAssoc m country.country_code (applyData (sortedYears ds) country.data))
    ((firstOccCodes ds).map
      (fun c => (c, List.replicate (sortedYears ds).length (0 : Int))))).map
    (fun p => Trace.bar (sortedYears ds) p.2 p.1)

/-- `plot_data` (lines 76-110). -/
def plot_data (combined_data : List CountrySeries) (graph_type : String) :
    Figure :=
  { traces :=
    if graph_type = "line" then
      combined_data.map (fun country =>
        Trace.scatter (country.data.map (fun item => item.year))
          (country.data.map (fun item => item.emission))
          country.country_code)
    else if graph_type = "bar" then
      combined_data.map (fun country =>
        Trace.bar (country.data.map (fun item => item.year))
          (country.data.map (fun item => item.emission))
          country.country_code)
    else if graph_type = "pie" then
      [Trace.pie (combined_data.map (fun country => country.country_code))
        (combined_data.map (fun country =>
          (country.data.map (fun item => item.emission)).sum))]
    else if graph_type = "stacked" then
      stackedTraces combined_data
    else
      [],
    layout :=
      { title := "EN_ATM_GHGT_AIP Data", xaxis_title := "Year",
        yaxis_title := "Emission", template := "plotly_dark" } }

/-- `update_graph` (lines 167-169): the dashboard callback filters the
global dataset to the selected codes and re-renders. -/
def update_graph (combined_data : List CountrySeries)
    (selected_countries : List String) (graph_type : String) : Figure :=
  plot_data
    (combined_data.filter (fun country => country.country_code ∈ selected_countries))
    graph_type

/-- Spec-side amount: the sum of emissions a single data list carries for
one year. -/
def dataContrib (d : List DataPoint) (y : String) : Int :=
  ((d.filter (fun item => item.year = y)).map (fun item => item.emission)).sum

/-- Spec-side amount: the sum of emissions a whole dataset carries for one
country code at one year. -/
def totalEmission (ds : List CountrySeries) (code : String) (y : String) :
    Int :=
  ((ds.filter (fun country => country.country_code = code)).map
    (fun country => dataContrib country.data y)).sum

/-! ### Facts about the stacked year axis -/

theorem sortedYears_nodup (ds : List CountrySeries) :
    (sortedYears ds).Nodup :=
  (List.perm_insertionSort strLe _).nodup_iff.mpr (List.nodup_dedup _)

theorem mem_sortedYears {ds : List CountrySeries} {y : String} :
    y ∈ sortedYears ds ↔ y ∈ allYears ds := by
  unfold sortedYears
  rw [List.mem_insertionSort, List.mem_dedup]

theorem mem_allYears {ds : List CountrySeries} {c : CountrySeries}
    {item : DataPoint} (hc : c ∈ ds) (hi : item ∈ c.data) :
    item.year ∈ allYears ds := by
  unfold allYears
  rw [List.mem_flatMap]
  exact ⟨c, hc, List.mem_map_of_mem _ hi⟩

theorem sortedYears_sorted (ds : List CountrySeries) :
    List.Pairwise strLt (sortedYears ds) := by
  have h1 : List.Pairwise strLe (sortedYears ds) :=
    List.sorted_insertionSort strLe _
  have h2 : List.Pairwise (· ≠ ·) (sortedYears ds) := sortedYears_nodup ds
  exact (h1.and h2).imp (fun h => h.1.resolve_right h.2)

/-! ### The accumulation loop of the stacked branch -/

theorem addAt_map (years : List String) (g : String → Int) (y : String)
    (x : Int) (hnd : years.Nodup) (hy : y ∈ years) :
    addAt (years.map g) (listIdx years y) x =
      years.map (fun z => g z + if z = y then x else 0) := by
  induction years with
  | nil => cases hy
  | cons a rest ih =>
    by_cases hay : a = y
    · subst hay
      simp only [listIdx, if_pos rfl, List.map_cons, addAt, if_pos rfl]
      have : rest.map g = rest.map (fun z => g z + if z = a then x else 0) := by
        apply List.map_congr_left
        intro z hz
        have hza : z ≠ a := fun h => (List.nodup_cons.mp hnd).1 (h ▸ hz)
        simp [hza]
      rw [← this]
      simp
    · have hyr : y ∈ rest := by
        cases List.mem_cons.mp hy with
        | inl h => exact absurd h.symm hay
        | inr h => exact h
      simp only [listIdx, if_neg hay, List.map_cons, addAt,
        ih (List.nodup_cons.mp hnd).2 hyr, if_neg hay, add_zero]

theorem dataContrib_nil (z : String) : dataContrib [] z = 0 := rfl

theorem dataContrib_cons (item : DataPoint) (rest : List DataPoint)
    (z : String) :
    dataContrib (item :: rest) z =
      (if item.year = z then item.emission else 0) + dataContrib rest z := by
  simp only [dataContrib, List.filter_cons]
  by_cases h : item.year = z
  · simp [h]
  · simp [h]

theorem applyData_map (years : List String) (d : List DataPoint)
    (g : String → Int) (hnd : years.Nodup)
    (hd : ∀ item ∈ d, item.year ∈ years) :
    applyData years d (years.map g) =
      years.map (fun z => g z + dataContrib d z) := by
  induction d generalizing g with
  | nil =>
    unfold applyData
    simp only [List.foldl_nil]
    apply List.map_congr_left
    intro z _
    rw [dataContrib_nil, add_zero]
  | cons item rest ih =>
    unfold applyData at ih ⊢
    simp only [List.foldl_cons]
    rw [addAt_map years g item.year item.emission hnd
      (hd item (List.mem_cons_self item rest))]
    rw [ih _ (fun it hit => hd it (List.mem_cons_of_mem item hit))]
    apply List.map_congr_left
    intro z _
    rw [dataContrib_cons]
    by_cases hz : z = item.year
    · subst hz
      simp [add_assoc]
    · have : item.year ≠ z := fun h => hz h.symm
      simp [hz, this]

theorem totalEmission_nil (code z : String) : totalEmission [] code z = 0 := rfl

theorem totalEmission_cons (c : CountrySeries) (l : List CountrySeries)
    (code z : String) :
    totalEmission (c :: l) code z =
      (if c.country_code = code then dataContrib c.data z else 0) +
        totalEmission l code z := by
  simp only [totalEmission, List.filter_cons]
  by_cases h : c.country_code = code
  · simp [h]
  · simp [h]

theorem initMap_congr (codes years : List String)
    (g1 g2 : String → String → Int) (h : ∀ k z, g1 k z = g2 k z) :
    codes.map (fun k => (k, years.map (g1 k))) =
      codes.map (fun k => (k, years.map (fun z => g2 k z))) := by
  have hg : g1 = fun k z => g2 k z := funext fun k => funext fun z => h k z
  rw [hg]

theorem stacked_foldl (l : List CountrySeries) (years codes : List String)
    (g : String → String → Int) (hnd : years.Nodup)
    (hl : ∀ c ∈ l, ∀ item ∈ c.data, item.year ∈ years) :
    l.foldl (fun m c => updateAssoc m c.country_code (applyData years c.data))
        (codes.map (fun k => (k, years.map (g k)))) =
      codes.map (fun k =>
        (k, years.map (fun z => g k z + totalEmission l k z))) := by
  induction l generalizing g with
  | nil =>
    simp only [List.foldl_nil]
    apply initMap_congr
    intro k z
    rw [totalEmission_nil, add_zero]
  | cons c l ih =>
    simp only [List.foldl_cons]
    have hupd :
        updateAssoc (codes.map (fun k => (k, years.map (g k))))
            c.country_code (applyData years c.data) =
          codes.map (fun k => (k, years.map (fun z =>
            g k z + if k = c.country_code then dataContrib c.data z else 0))) := by
      unfold updateAssoc
      rw [List.map_map]
      apply List.map_congr_left
      intro k _
      by_cases hkc : k = c.country_code
      · simp only [Function.comp_apply, if_pos hkc]
        rw [applyData_map years c.data (g k) hnd
          (fun item hi => hl c (List.mem_cons_self c l) item hi)]
      · simp [Function.comp_apply, hkc]
    rw [hupd]
    rw [ih (fun k z => g k z + if k = c.country_code then dataContrib c.data z else 0)
      (fun c' hc' => hl c' (List.mem_cons_of_mem c hc'))]
    apply initMap_congr
    intro k z
    rw [totalEmission_cons]
    by_cases hk : k = c.country_code
    · subst hk
      simp [add_assoc]
    · have hck : c.country_code ≠ k := fun h => hk h.symm
      simp [hk, hck]

/-- The stacked branch, characterised: one bar trace per distinct country
code (first-occurrence order), each on the common sorted year axis, each
value the dataset's total emission for that code at that year. -/
theorem stackedTraces_eq (ds : List CountrySeries) :
    stackedTraces ds =
      (firstOccCodes ds).map (fun k =>
        Trace.bar (sortedYears ds)
          ((sortedYears ds).map (fun z => totalEmission ds k z)) k) := by
  unfold stackedTraces
  have hinit :
      (firstOccCodes ds).map
          (fun c => (c, List.replicate (sortedYears ds).length (0 : Int))) =
        (firstOccCodes ds).map
          (fun k => (k, (sortedYears ds).map (fun _ => (0 : Int)))) := by
    simp
  rw [hinit]
  rw [stacked_foldl ds (sortedYears ds) (firstOccCodes ds) (fun _ _ => 0)
    (sortedYears_nodup ds)
    (fun c hc item hi => mem_sortedYears.mpr (mem_allYears hc hi))]
  rw [List.map_map]
  apply List.map_congr_left
  intro k _
  simp

/-! ### Facts about the aggregated series -/

theorem seriesToData_perm (s : List (String × Int)) :
    ((seriesToData s).map (fun e => (e.year, e.emission))).Perm s := by
  unfold seriesToData
  rw [List.map_map]
  have hcomp :
      ((fun e : DataPoint => (e.year, e.emission)) ∘
        fun p : String × Int => (⟨p.1, p.2⟩ : DataPoint)) = id := by
    funext p
    rfl
  rw [hcomp, List.map_id]
  exact List.perm_insertionSort pairLe s

theorem seriesToData_sorted (s : List (String × Int))
    (h : (s.map Prod.fst).Nodup) :
    List.Pairwise (fun a b : DataPoint => strLt a.year b.year)
      (seriesToData s) := by
  unfold seriesToData
  rw [List.pairwise_map]
  have hsorted : List.Pairwise pairLe (List.insertionSort pairLe s) :=
    List.sorted_insertionSort pairLe s
  have hnd : ((List.insertionSort pairLe s).map Prod.fst).Nodup := by
    have hp : ((List.insertionSort pairLe s).map Prod.fst).Perm (s.map Prod.fst) :=
      (List.perm_insertionSort pairLe s).map Prod.fst
    exact hp.nodup_iff.mpr h
  have hne : List.Pairwise (fun a b : String × Int => a.1 ≠ b.1)
      (List.insertionSort pairLe s) := List.pairwise_map.mp hnd
  exact (hsorted.and hne).imp
    (fun hab => hab.1.resolve_right (fun hh => hab.2 hh.1))

/-- Whether a response contributes an entry: present and with a `series`
field. -/
def isOkResp (r : Option ApiResponse) : Bool :=
  match r with
  | some a => a.series.isSome
  | none => false

theorem parse_country_data_append (a b : List (String × Option ApiResponse)) :
    parse_country_data (a ++ b) =
      parse_country_data a ++ parse_country_data b := by
  unfold parse_country_data
  exact List.filterMap_append a b _

theorem parse_country_data_length (pairs : List (String × Option ApiResponse)) :
    (parse_country_data pairs).length =
      (pairs.filter (fun p => isOkResp p.2)).length := by
  induction pairs with
  | nil => rfl
  | cons p rest ih =>
    unfold parse_country_data at ih ⊢
    cases hp2 : p.2 with
    | none =>
      simp [List.filterMap_cons, List.filter_cons, hp2, isOkResp, ih]
    | some r =>
      cases hs : r.series with
      | none =>
        simp [List.filterMap_cons, List.filter_cons, hp2, hs, isOkResp, ih]
      | some s =>
        simp [List.filterMap_cons, List.filter_cons, hp2, hs, isOkResp, ih]

/-! ### Branch-selection lemmas for plot_data -/

theorem plot_data_line (ds : List CountrySeries) :
    (plot_data ds "line").traces =
      ds.map (fun country =>
        Trace.scatter (country.data.map (fun item => item.year))
          (country.data.map (fun item => item.emission))
          country.country_code) := rfl

theorem plot_data_bar (ds : List CountrySeries) :
    (plot_data ds "bar").traces =
      ds.map (fun country =>
        Trace.bar (country.data.map (fun item => item.year))
          (country.data.map (fun item => item.emission))
          country.country_code) := rfl

theorem plot_data_pie (ds : List CountrySeries) :
    (plot_data ds "pie").traces =
      [Trace.pie (ds.map (fun country => country.country_code))
        (ds.map (fun country =>
          (country.data.map (fun item => item.emission)).sum))] := rfl

theorem plot_data_stacked (ds : List CountrySeries) :
    (plot_data ds "stacked").traces = stackedTraces ds := rfl

theorem parse_country_data_cons_ok (code : String) (s : List (String × Int))
    (rest : List (String × Option ApiResponse)) :
    parse_country_data ((code, some ⟨some s⟩) :: rest) =
      ⟨code, seriesToData s⟩ :: parse_country_data rest := by
  unfold parse_country_data
  simp [List.filterMap_cons]

/-! ### The claims -/

/-- Claim C1: for every API response whose `series` mapping (keys nodup,
as in a mapping) is consumed, the produced data sequence is strictly
ascending in the raw year string and holds exactly one point per input
key (its (year, emission) pairs are a permutation of the input), and this
is exactly the data list `parse_country_data` and `fetch_eu_data` store
for that response. -/
theorem C1_series_sorted_complete (s : List (String × Int))
    (h : (s.map Prod.fst).Nodup) :
    List.Pairwise (fun a b : DataPoint => strLt a.year b.year)
        (seriesToData s) ∧
      ((seriesToData s).map (fun e => (e.year, e.emission))).Perm s ∧
      (∀ (code : String) (rest : List (String × Option ApiResponse)),
        parse_country_data ((code, some ⟨some s⟩) :: rest) =
          ⟨code, seriesToData s⟩ :: parse_country_data rest) ∧
      fetch_eu_data (.ok ⟨some s⟩) = [⟨"EU", seriesToData s⟩] :=
  ⟨seriesToData_sorted s h, seriesToData_perm s,
    fun code rest => parse_country_data_cons_ok code s rest, rfl⟩

theorem C1_witness :
    (([("2019", (100 : Int)), ("2018", 90)].map Prod.fst).Nodup ∧
      (List.Pairwise (fun a b : DataPoint => strLt a.year b.year)
          (seriesToData [("2019", 100), ("2018", 90)]) ∧
        ((seriesToData [("2019", 100), ("2018", 90)]).map
            (fun e => (e.year, e.emission))).Perm
          [("2019", 100), ("2018", 90)] ∧
        (∀ (code : String) (rest : List (String × Option ApiResponse)),
          parse_country_data
              ((code, some ⟨some [("2019", 100), ("2018", 90)]⟩) :: rest) =
            ⟨code, seriesToData [("2019", 100), ("2018", 90)]⟩ ::
              parse_country_data rest) ∧
        fetch_eu_data (.ok ⟨some [("2019", 100), ("2018", 90)]⟩) =
          [⟨"EU", seriesToData [("2019", 100), ("2018", 90)]⟩])) ∧
    seriesToData [("2019", 100), ("2018", 90)] =
      [⟨"2018", 90⟩, ⟨"2019", 100⟩] :=
  ⟨⟨by decide, C1_series_sorted_complete _ (by decide)⟩, by decide⟩

/-- Claim C2: saving a dataset and loading from the same path returns an
equal dataset when no I/O failure occurs: the save returns normally with
the file holding the dataset's JSON, the load returns exactly that JSON,
and decoding it recovers the saved dataset. -/
theorem C2_save_load_roundtrip (fs : FileSys) (d : List CountrySeries)
    (path : String) (h : fs.writeFails path = false) :
    ∃ fs2 log, save_data_to_json fs d path = Except.ok (fs2, log) ∧
      ∃ j, load_data_from_json fs2 path = Except.ok j ∧
        decodeDataset j = some d := by
  refine ⟨{ fs with contents := fun p =>
      if p = path then .json (encodeDataset d) else fs.contents p },
    "Data saved to " ++ path, ?_, encodeDataset d, ?_,
    decodeDataset_encodeDataset d⟩
  · unfold save_data_to_json
    simp [h]
  · unfold load_data_from_json
    simp

theorem C2_witness :
    (FileSys.mk (fun _ => .absent) (fun _ => false)).writeFails
        "EN_ATM_GHGT_AIP_sorted.json" = false ∧
    ∃ fs2 log,
      save_data_to_json ⟨fun _ => .absent, fun _ => false⟩
          [⟨"AUS", [⟨"2018", 90⟩, ⟨"2019", 100⟩]⟩]
          "EN_ATM_GHGT_AIP_sorted.json" = Except.ok (fs2, log) ∧
      ∃ j, load_data_from_json fs2 "EN_ATM_GHGT_AIP_sorted.json" =
          Except.ok j ∧
        decodeDataset j = some [⟨"AUS", [⟨"2018", 90⟩, ⟨"2019", 100⟩]⟩] :=
  ⟨rfl, C2_save_load_roundtrip _ _ _ rfl⟩

/-- Claim C3: a code whose fetch failed (`None` response, as `fetch_data`
returns on any raised error) or whose response lacks a `series` field
contributes zero entries: dropping it leaves the other codes' results
untouched; a successful response for the same code would have contributed
exactly one entry; and an errored fetch indeed yields `None`. -/
theorem C3_failed_code_contributes_nothing :
    (∀ (pre post : List (String × Option ApiResponse)) (code : String)
        (r : Option ApiResponse),
      (r = none ∨ ∃ a, r = some a ∧ a.series = none) →
      parse_country_data (pre ++ (code, r) :: post) =
        parse_country_data (pre ++ post)) ∧
    (∀ (pre post : List (String × Option ApiResponse)) (code : String)
        (s : List (String × Int)),
      (parse_country_data (pre ++ (code, some ⟨some s⟩) :: post)).length =
        (parse_country_data (pre ++ post)).length + 1) ∧
    (∀ msg, fetch_data (.err msg) = none) := by
  refine ⟨?_, ?_, fun _ => rfl⟩
  · intro pre post code r hr
    rw [parse_country_data_append, parse_country_data_append]
    rcases hr with rfl | ⟨a, rfl, ha⟩
    · unfold parse_country_data
      simp [List.filterMap_cons]
    · unfold parse_country_data
      simp [List.filterMap_cons, ha]
  · intro pre post code s
    rw [parse_country_data_append, parse_country_data_append,
      parse_country_data_cons_ok]
    simp [Nat.add_assoc, Nat.add_comm 1]

theorem C3_witness :
    ((some (ApiResponse.mk none) : Option ApiResponse) = none ∨
      ∃ a, (some (ApiResponse.mk none) : Option ApiResponse) = some a ∧
        a.series = none) ∧
    parse_country_data
        [("AUS", some ⟨some [("2019", 100)]⟩), ("AUT", some ⟨none⟩),
          ("BEL", none), ("CAN", some ⟨some [("2018", 1)]⟩)] =
      parse_country_data
        [("AUS", some ⟨some [("2019", 100)]⟩), ("BEL", none),
          ("CAN", some ⟨some [("2018", 1)]⟩)] ∧
    (parse_country_data
        [("AUS", some ⟨some [("2019", 100)]⟩), ("AUT", some ⟨none⟩),
          ("BEL", none), ("CAN", some ⟨some [("2018", 1)]⟩)]).length = 2 :=
  ⟨Or.inr ⟨_, rfl, rfl⟩,
    C3_failed_code_contributes_nothing.1
      [("AUS", some ⟨some [("2019", 100)]⟩)]
      [("BEL", none), ("CAN", some ⟨some [("2018", 1)]⟩)] "AUT"
      (some ⟨none⟩) (Or.inr ⟨_, rfl, rfl⟩),
    by decide⟩

/-- Claim C4: the merged dataset is the country results in request order
with the EU result appended last when it is non-empty, and the country
results alone when the EU result is empty; nothing is reordered or
deduplicated. -/
theorem C4_merge_order (cd eu : List CountrySeries) :
    (eu ≠ [] → combineData cd eu = cd ++ eu) ∧ combineData cd [] = cd := by
  constructor
  · intro h
    unfold combineData
    rw [if_neg h]
  · unfold combineData
    rw [if_pos rfl]

theorem C4_witness :
    ([(⟨"EU", []⟩ : CountrySeries)] ≠ [] ∧
      combineData [⟨"AUS", []⟩] [⟨"EU", []⟩] =
        [⟨"AUS", []⟩] ++ [⟨"EU", []⟩]) ∧
    combineData [⟨"AUS", []⟩] [] = [⟨"AUS", []⟩] :=
  ⟨⟨by decide, (C4_merge_order [⟨"AUS", []⟩] [⟨"EU", []⟩]).1 (by decide)⟩,
    (C4_merge_order [⟨"AUS", []⟩] []).2⟩

/-- Claim C5: `save_data_to_json` never raises (every outcome, including
a failing write, is a normal return), and `load_data_from_json` returns
the empty sequence on any failure (missing file or malformed JSON)
without raising. -/
theorem C5_persistence_error_handling :
    (∀ (fs : FileSys) (d : List CountrySeries) (p : String),
      ∃ r, save_data_to_json fs d p = Except.ok r) ∧
    (∀ (fs : FileSys) (p : String),
      (fs.contents p = .absent ∨ fs.contents p = .malformed) →
      load_data_from_json fs p = Except.ok (Json.arr [])) := by
  constructor
  · intro fs d p
    unfold save_data_to_json
    by_cases h : fs.writeFails p
    · rw [if_pos h]
      exact ⟨_, rfl⟩
    · rw [if_neg h]
      exact ⟨_, rfl⟩
  · intro fs p hp
    unfold load_data_from_json
    rcases hp with h | h <;> rw [h]

theorem C5_witness :
    ((FileSys.mk (fun _ => .absent) (fun _ => true)).contents "out.json" =
        .absent ∨
      (FileSys.mk (fun _ => .absent) (fun _ => true)).contents "out.json" =
        .malformed) ∧
    load_data_from_json ⟨fun _ => .absent, fun _ => true⟩ "out.json" =
      Except.ok (Json.arr []) ∧
    ∃ r, save_data_to_json ⟨fun _ => .absent, fun _ => true⟩
        [⟨"AUS", []⟩] "out.json" = Except.ok r :=
  ⟨Or.inl rfl,
    C5_persistence_error_handling.2 ⟨fun _ => .absent, fun _ => true⟩
      "out.json" (Or.inl rfl),
    C5_persistence_error_handling.1 ⟨fun _ => .absent, fun _ => true⟩
      [⟨"AUS", []⟩] "out.json"⟩

/-- Claim C6: for every dataset subset, the `pie` rendering is a single
pie trace with one slice per country entry, in order, whose value is the
sum of that entry's emissions over all of its years. -/
theorem C6_pie_aggregate (ds : List CountrySeries) :
    (plot_data ds "pie").traces =
      [Trace.pie (ds.map (fun country => country.country_code))
        (ds.map (fun country =>
          (country.data.map (fun item => item.emission)).sum))] ∧
    (ds.map (fun country =>
      (country.data.map (fun item => item.emission)).sum)).length =
      ds.length ∧
    ∀ (i : Nat) (c : CountrySeries), ds[i]? = some c →
      (ds.map (fun country =>
        (country.data.map (fun item => item.emission)).sum))[i]? =
        some ((c.data.map (fun item => item.emission)).sum) := by
  refine ⟨plot_data_pie ds, by simp, ?_⟩
  intro i c hc
  rw [List.getElem?_map, hc]
  rfl

theorem C6_witness :
    ([⟨"AUS", [⟨"2018", 90⟩, ⟨"2019", 100⟩]⟩, ⟨"CAN", [⟨"2018", 1⟩]⟩] :
        List CountrySeries)[0]? =
      some ⟨"AUS", [⟨"2018", 90⟩, ⟨"2019", 100⟩]⟩ ∧
    (([⟨"AUS", [⟨"2018", 90⟩, ⟨"2019", 100⟩]⟩, ⟨"CAN", [⟨"2018", 1⟩]⟩] :
        List CountrySeries).map (fun country =>
          (country.data.map (fun item => item.emission)).sum))[0]? =
      some 190 :=
  ⟨by decide,
    (C6_pie_aggregate
        [⟨"AUS", [⟨"2018", 90⟩, ⟨"2019", 100⟩]⟩, ⟨"CAN", [⟨"2018", 1⟩]⟩]).2.2
      0 ⟨"AUS", [⟨"2018", 90⟩, ⟨"2019", 100⟩]⟩ (by decide)⟩

/-- Claim C7: the `stacked` rendering uses as x-axis the
strictly-ascending (lexicographic) union of all years of the subset,
builds one bar trace per country code whose vector at each axis year is
the summed emission of that code at that year (so zero where the country
has no data for the year, and a sum when it has several entries). -/
theorem C7_stacked_axis_zero_fill (ds : List CountrySeries) :
    (plot_data ds "stacked").traces =
      (firstOccCodes ds).map (fun k =>
        Trace.bar (sortedYears ds)
          ((sortedYears ds).map (fun z => totalEmission ds k z)) k) ∧
    List.Pairwise strLt (sortedYears ds) ∧
    (∀ y, y ∈ sortedYears ds ↔
      ∃ c ∈ ds, ∃ item ∈ c.data, item.year = y) ∧
    (∀ k y,
      (∀ c ∈ ds, c.country_code = k → ∀ item ∈ c.data, item.year ≠ y) →
      totalEmission ds k y = 0) := by
  refine ⟨by rw [plot_data_stacked, stackedTraces_eq],
    sortedYears_sorted ds, ?_, ?_⟩
  · intro y
    rw [mem_sortedYears]
    unfold allYears
    rw [List.mem_flatMap]
    constructor
    · rintro ⟨c, hc, hy⟩
      rw [List.mem_map] at hy
      obtain ⟨item, hi, hiy⟩ := hy
      exact ⟨c, hc, item, hi, hiy⟩
    · rintro ⟨c, hc, item, hi, hiy⟩
      exact ⟨c, hc, List.mem_map.mpr ⟨item, hi, hiy⟩⟩
  · intro k y h
    unfold totalEmission
    apply List.sum_eq_zero
    intro x hx
    rw [List.mem_map] at hx
    obtain ⟨c, hc, rfl⟩ := hx
    rw [List.mem_filter] at hc
    have hck : c.country_code = k := by simpa using hc.2
    unfold dataContrib
    have hfil : c.data.filter (fun item => decide (item.year = y)) = [] := by
      rw [List.filter_eq_nil_iff]
      intro item hi
      simpa using h c hc.1 hck item hi
    rw [hfil]
    rfl

theorem C7_witness :
    sortedYears [⟨"A", [⟨"2000", 1⟩, ⟨"2001", 2⟩]⟩, ⟨"B", [⟨"2000", 3⟩]⟩] =
      ["2000", "2001"] ∧
    (∀ c ∈ ([⟨"A", [⟨"2000", 1⟩, ⟨"2001", 2⟩]⟩, ⟨"B", [⟨"2000", 3⟩]⟩] :
        List CountrySeries), c.country_code = "B" →
      ∀ item ∈ c.data, item.year ≠ "2001") ∧
    totalEmission [⟨"A", [⟨"2000", 1⟩, ⟨"2001", 2⟩]⟩, ⟨"B", [⟨"2000", 3⟩]⟩]
      "B" "2001" = 0 ∧
    (plot_data [⟨"A", [⟨"2000", 1⟩, ⟨"2001", 2⟩]⟩, ⟨"B", [⟨"2000", 3⟩]⟩]
        "stacked").traces =
      [Trace.bar ["2000", "2001"] [1, 2] "A",
        Trace.bar ["2000", "2001"] [3, 0] "B"] :=
  ⟨by decide, by decide,
    (C7_stacked_axis_zero_fill
        [⟨"A", [⟨"2000", 1⟩, ⟨"2001", 2⟩]⟩, ⟨"B", [⟨"2000", 3⟩]⟩]).2.2.2
      "B" "2001" (by decide),
    by decide⟩

/-- Claim C8: the dashboard callback renders exactly the entries whose
country_code lies in the selected set, keeping the dataset's original
order (the filtered list is a sublist of the dataset), and hands that
filtered subset to the renderer. -/
theorem C8_filter_dataset_order (cd : List CountrySeries) (S : List String)
    (gt : String) :
    update_graph cd S gt =
      plot_data (cd.filter (fun country => country.country_code ∈ S)) gt ∧
    (cd.filter (fun country => country.country_code ∈ S)).Sublist cd ∧
    ∀ c, c ∈ cd.filter (fun country => country.country_code ∈ S) ↔
      c ∈ cd ∧ c.country_code ∈ S := by
  refine ⟨rfl, List.filter_sublist cd, ?_⟩
  intro c
  rw [List.mem_filter]
  simp

theorem C8_witness :
    update_graph [⟨"AUS", []⟩, ⟨"CAN", []⟩, ⟨"USA", []⟩] ["USA", "AUS"]
        "line" =
      plot_data (([⟨"AUS", []⟩, ⟨"CAN", []⟩, ⟨"USA", []⟩] :
        List CountrySeries).filter
          (fun country => country.country_code ∈ ["USA", "AUS"])) "line" ∧
    ([⟨"AUS", []⟩, ⟨"CAN", []⟩, ⟨"USA", []⟩] : List CountrySeries).filter
        (fun country => country.country_code ∈ ["USA", "AUS"]) =
      [⟨"AUS", []⟩, ⟨"USA", []⟩] :=
  ⟨(C8_filter_dataset_order [⟨"AUS", []⟩, ⟨"CAN", []⟩, ⟨"USA", []⟩]
      ["USA", "AUS"] "line").1, by decide⟩

/-- Claim C9: for a chart type outside {line, bar, pie, stacked} the
renderer returns normally with a figure containing no traces. -/
theorem C9_unknown_type_no_traces (ds : List CountrySeries) (gt : String)
    (h : gt ∉ (["line", "bar", "pie", "stacked"] : List String)) :
    (plot_data ds gt).traces = [] := by
  have h1 : ¬gt = "line" := fun e => h (by rw [e]; decide)
  have h2 : ¬gt = "bar" := fun e => h (by rw [e]; decide)
  have h3 : ¬gt = "pie" := fun e => h (by rw [e]; decide)
  have h4 : ¬gt = "stacked" := fun e => h (by rw [e]; decide)
  simp only [plot_data]
  rw [if_neg h1, if_neg h2, if_neg h3, if_neg h4]

theorem C9_witness :
    ("area" ∉ (["line", "bar", "pie", "stacked"] : List String)) ∧
    (plot_data [⟨"AUS", [⟨"2018", 90⟩]⟩] "area").traces = [] :=
  ⟨by decide,
    C9_unknown_type_no_traces [⟨"AUS", [⟨"2018", 90⟩]⟩] "area" (by decide)⟩

/-- Claim C10: two entries sharing a country code collapse to a single
stacked bar series whose per-year values sum both entries' emissions,
while `line` and `bar` render one trace per entry. -/
theorem C10_duplicate_code_collapse (c : String) (d1 d2 : List DataPoint) :
    (plot_data [⟨c, d1⟩, ⟨c, d2⟩] "stacked").traces =
      [Trace.bar (sortedYears [⟨c, d1⟩, ⟨c, d2⟩])
        ((sortedYears [⟨c, d1⟩, ⟨c, d2⟩]).map
          (fun z => dataContrib d1 z + dataContrib d2 z)) c] ∧
    (plot_data [⟨c, d1⟩, ⟨c, d2⟩] "line").traces.length = 2 ∧
    (plot_data [⟨c, d1⟩, ⟨c, d2⟩] "bar").traces.length = 2 := by
  refine ⟨?_, by rw [plot_data_line]; rfl, by rw [plot_data_bar]; rfl⟩
  rw [plot_data_stacked, stackedTraces_eq]
  have hcodes : firstOccCodes [⟨c, d1⟩, ⟨c, d2⟩] = [c] := by
    unfold firstOccCodes
    simp [insertCode]
  rw [hcodes]
  have htot : ∀ z, totalEmission [⟨c, d1⟩, ⟨c, d2⟩] c z =
      dataContrib d1 z + dataContrib d2 z := by
    intro z
    rw [totalEmission_cons, totalEmission_cons, totalEmission_nil]
    simp
  simp [htot]
